import Mathlib

/-!
Verification development for the nostromo local-network file-sharing
service.  The server code (Express routes, EncryptionService,
DeviceManager, Database wrapper) is shallowly embedded below: every
definition is translated from the JavaScript source, with external
library primitives (Node crypto, sodium) replaced by concrete
executable models whose doc comments say exactly what is being
modelled.  Bytes are natural numbers below 256, timestamps are natural
numbers, database tables are lists of records, and the uploads
directory is a list of (name, bytes) pairs.
-/

namespace Nostromo

/-! ## Model of the external crypto library (Node crypto)

The EncryptionService in lib/encryption.js calls crypto.createCipher
and crypto.createDecipher.  Unlike createCipheriv, createCipher has
signature (algorithm, password): it derives both the cipher key and
the cipher IV deterministically from the password via EVP_BytesToKey,
and a third argument is ignored.  The service passes its randomly
generated 16-byte iv as that ignored third argument, so the derived
key and IV depend only on the key material.  The AES-256-GCM core is
modelled as an idealized length-preserving keystream cipher with a
16-byte authentication tag that is a function of the derived key, the
derived IV and the ciphertext. -/

/-- Concrete byte-valued mixing function used by the crypto model; the only
properties the development relies on are determinism and that results are
below 256. -/
def mixByte (password : List Nat) (i : Nat) : Nat :=
  (password.foldl (fun a b => (a * 31 + b + 1) % 251) (i * 17 + 7) + i) % 256

/-- Modelled EVP_BytesToKey key derivation used by crypto.createCipher: the
32-byte cipher key is a function of the password alone. -/
def evpKey (password : List Nat) : List Nat :=
  (List.range 32).map (mixByte password)

/-- Modelled EVP_BytesToKey IV derivation used by crypto.createCipher: the
12-byte GCM IV is a function of the password alone (the caller-supplied iv
argument plays no role). -/
def evpIv (password : List Nat) : List Nat :=
  (List.range 12).map (fun i => mixByte password (32 + i))

/-- Modelled GCM keystream byte at position i for a derived key and IV. -/
def gcmKs (key iv : List Nat) (i : Nat) : Nat :=
  mixByte (key ++ iv) i

/-- Modelled GCM encryption/decryption core: XOR the data with the keystream
starting at position i.  XOR makes the core an involution, matching the
stream-cipher structure of AES-GCM. -/
def xcryptFrom (key iv : List Nat) : Nat → List Nat → List Nat
  | _, [] => []
  | i, b :: rest => (b ^^^ gcmKs key iv i) :: xcryptFrom key iv (i + 1) rest

/-- Modelled GCM authentication tag: 16 bytes determined by the derived key,
the derived IV and the ciphertext. -/
def gcmTag (key iv ct : List Nat) : List Nat :=
  (List.range 16).map
    (fun i => ct.foldl (fun a b => (a * 33 + b + 1) % 249) (mixByte (key ++ iv) (100 + i)) % 256)

/-! ## EncryptionService (lib/encryption.js) -/

/-- Cipher parameter ivLength from the EncryptionService constructor. -/
def ivLength : Nat := 16

/-- Cipher parameter tagLength from the EncryptionService constructor. -/
def tagLength : Nat := 16

/-- Cipher parameter keyLength from the EncryptionService constructor. -/
def keyLength : Nat := 32

/-- EncryptionService.encryptFile: derive key material from keyBytes (the
base64-decoded key, modelled directly as bytes), generate a random iv
(passed in as a parameter here, since randomness is external), encrypt and
return iv ++ tag ++ ciphertext.  Because the source calls
crypto.createCipher, the cipher key and IV are derived from keyBytes alone
and the random iv only ends up as the blob prefix. -/
def encryptFile (buffer keyBytes iv : List Nat) : List Nat :=
  let dkey := evpKey keyBytes
  let div := evpIv keyBytes
  let enc := xcryptFrom dkey div 0 buffer
  iv ++ (gcmTag dkey div enc ++ enc)

/-- EncryptionService.decryptFile: slice the blob into iv, tag and
ciphertext, then decrypt with crypto.createDecipher.  The iv slice
(blob.take 16) is computed by the source but never used, because
createDecipher derives its own key and IV from keyBytes; setAuthTag is
modelled as the tag comparison, and a mismatch is the thrown error
(returned as none). -/
def decryptFile (blob keyBytes : List Nat) : Option (List Nat) :=
  let dkey := evpKey keyBytes
  let div := evpIv keyBytes
  let tag := (blob.drop ivLength).take tagLength
  let enc := blob.drop (ivLength + tagLength)
  if gcmTag dkey div enc == tag then some (xcryptFrom dkey div 0 enc) else none

/-- EncryptionService.generateKey returns 32 random bytes (base64-encoded in
the source); a key value is valid when it decodes to 32 bytes. -/
def validKey (k : List Nat) : Prop :=
  k.length = keyLength ∧ ∀ b ∈ k, b < 256

/-- Modelled collision-free hash standing for the SHA-256 hex digest used by
EncryptionService.hashApiKey and generateFingerprint: an injective tagging
of the input. -/
def sha256 (data : List Nat) : List Nat := data.length :: data

/-- EncryptionService.hashApiKey. -/
def hashApiKey (k : List Nat) : List Nat := sha256 k

/-- EncryptionService.generateFingerprint: first 16 characters of the hex
digest of the public key. -/
def generateFingerprint (publicKey : List Nat) : List Nat :=
  (sha256 publicKey).take 16

/-- Flip the lowest bit of the first byte of a blob (a single-bit
tampering of the leading IV segment). -/
def flipFirstBit : List Nat → List Nat
  | [] => []
  | b :: r => (b ^^^ 1) :: r

theorem xcryptFrom_length (key iv : List Nat) :
    ∀ (i : Nat) (l : List Nat), (xcryptFrom key iv i l).length = l.length
  | _, [] => rfl
  | i, _ :: r => by
    simp [xcryptFrom, xcryptFrom_length key iv (i + 1) r]

theorem xcryptFrom_involution (key iv : List Nat) :
    ∀ (i : Nat) (l : List Nat), xcryptFrom key iv i (xcryptFrom key iv i l) = l
  | _, [] => rfl
  | i, b :: r => by
    simp [xcryptFrom, Nat.xor_cancel_right, xcryptFrom_involution key iv (i + 1) r]

theorem gcmTag_length (key iv ct : List Nat) : (gcmTag key iv ct).length = 16 := by
  simp [gcmTag]

instance : DecidablePred validKey := fun k =>
  decidable_of_iff (k.length = keyLength ∧ ∀ b ∈ k, b < 256) (by unfold validKey; exact Iff.rfl)

/-- C2: decrypting the blob produced by encrypting a plaintext P under a
generated key K, with the same K, returns exactly P.  The iv argument is
the fresh 16-byte random value drawn inside encryptFile. -/
theorem encrypt_decrypt_roundtrip (P K iv : List Nat)
    (hK : validKey K) (hiv : iv.length = 16) :
    decryptFile (encryptFile P K iv) K = some P := by
  unfold encryptFile decryptFile
  have htag : (gcmTag (evpKey K) (evpIv K) (xcryptFrom (evpKey K) (evpIv K) 0 P)).length = 16 :=
    gcmTag_length _ _ _
  have h1 : ((iv ++ (gcmTag (evpKey K) (evpIv K) (xcryptFrom (evpKey K) (evpIv K) 0 P) ++
      xcryptFrom (evpKey K) (evpIv K) 0 P)).drop ivLength) =
      gcmTag (evpKey K) (evpIv K) (xcryptFrom (evpKey K) (evpIv K) 0 P) ++
      xcryptFrom (evpKey K) (evpIv K) 0 P :=
    List.drop_left' hiv
  have h2 : ((iv ++ (gcmTag (evpKey K) (evpIv K) (xcryptFrom (evpKey K) (evpIv K) 0 P) ++
      xcryptFrom (evpKey K) (evpIv K) 0 P)).drop (ivLength + tagLength)) =
      xcryptFrom (evpKey K) (evpIv K) 0 P := by
    rw [← List.append_assoc]
    exact List.drop_left' (by simp [List.length_append, hiv, htag, ivLength, tagLength])
  have h3 : ((gcmTag (evpKey K) (evpIv K) (xcryptFrom (evpKey K) (evpIv K) 0 P) ++
      xcryptFrom (evpKey K) (evpIv K) 0 P).take tagLength) =
      gcmTag (evpKey K) (evpIv K) (xcryptFrom (evpKey K) (evpIv K) 0 P) :=
    List.take_left' htag
  simp only [h1, h2, h3]
  simp [xcryptFrom_involution]

set_option maxRecDepth 8000 in
/-- C2 witness: a concrete round trip at plaintext [1, 2, 3]. -/
theorem encrypt_decrypt_roundtrip_witness :
    validKey (List.range 32) ∧ (List.range 16).length = 16 ∧
    decryptFile (encryptFile [1, 2, 3] (List.range 32) (List.range 16)) (List.range 32) =
      some [1, 2, 3] :=
  ⟨by decide, by decide,
    encrypt_decrypt_roundtrip [1, 2, 3] (List.range 32) (List.range 16) (by decide) (by decide)⟩

set_option maxRecDepth 8000 in
/-- C3: evaluating the code at the failing input.  Flipping a single bit
inside the leading IV segment of an encrypted blob does NOT make
decryption fail: decryption succeeds and returns the original plaintext,
because the source passes the iv to crypto.createCipher, whose signature
(algorithm, password) ignores it, and the stored IV slice is never used by
decryptFile.  The claim requires decryption of any single-bit-tampered
blob to fail with an error. -/
theorem iv_bit_flip_not_detected :
    flipFirstBit (encryptFile [10, 20] (List.range 32) (List.range 16)) ≠
      encryptFile [10, 20] (List.range 32) (List.range 16) ∧
    decryptFile (flipFirstBit (encryptFile [10, 20] (List.range 32) (List.range 16)))
      (List.range 32) = some [10, 20] := by
  constructor
  · decide
  · decide

/-! ## API keys and authentication (routes/auth.js)

API keys live in the api_keys table.  The permissions column stores a
comma-separated string that is split at every use site; it is modelled
directly as the list of permission names.  Timestamps are natural
numbers; the expires_at comparison new Date() > new Date(expires_at) is
strict. -/

/-- Row of the api_keys table. -/
structure ApiKeyRec where
  id : String
  keyHash : List Nat
  deviceId : String
  permissions : List String
  createdAt : Nat
  expiresAt : Option Nat
  isActive : Bool
deriving DecidableEq

/-- The req.apiKey value installed by authenticateRequest on success. -/
structure Principal where
  id : String
  deviceId : String
  permissions : List String
deriving DecidableEq

/-- The three 401 responses of authenticateRequest. -/
inductive AuthErr where
  | keyRequired
  | keyInvalid
  | keyExpired
deriving DecidableEq

/-- JavaScript truthiness of an optional string-like value: undefined and
the empty string are falsy. -/
def jsTruthy : Option (List Nat) → Bool
  | none => false
  | some s => !s.isEmpty

/-- JavaScript a || b on optional string-like values. -/
def jsOr (a b : Option (List Nat)) : Option (List Nat) :=
  if jsTruthy a then a else b

/-- Middleware authenticateRequest: the key is taken from the X-API-Key
header or from the apiKey query parameter, hashed, and looked up among
the active rows; an expired row is rejected strictly after expires_at. -/
def authenticateRequest (keys : List ApiKeyRec) (headerKey queryKey : Option (List Nat))
    (now : Nat) : Except AuthErr Principal :=
  match jsOr headerKey queryKey with
  | none => .error .keyRequired
  | some k =>
    if k.isEmpty then .error .keyRequired
    else
      match keys.find? (fun r => r.keyHash == hashApiKey k && r.isActive) with
      | none => .error .keyInvalid
      | some r =>
        match r.expiresAt with
        | some e => if now > e then .error .keyExpired
                    else .ok { id := r.id, deviceId := r.deviceId, permissions := r.permissions }
        | none => .ok { id := r.id, deviceId := r.deviceId, permissions := r.permissions }

deriving instance DecidableEq for Except

/-- Middleware requirePermission: present principal whose permission list
contains the required permission. -/
def requirePermission (perm : String) (p : Principal) : Bool :=
  p.permissions.contains perm

/-- Handler body of DELETE /api-keys/:keyId: flip is_active to 0 for the
matching row; the row is never removed. -/
def revokeApiKey (keyId : String) (keys : List ApiKeyRec) : List ApiKeyRec :=
  keys.map (fun r => if r.id == keyId then { r with isActive := false } else r)

/-- Handler body of GET /api-keys: return the active rows. -/
def listApiKeys (keys : List ApiKeyRec) : List ApiKeyRec :=
  keys.filter (fun r => r.isActive)

/-! ## Route table and the access-control gate

Every route of routes/auth.js, routes/devices.js and routes/files.js,
with the middleware chain it is declared with in the source.  A route
carries authenticateRequest plus requirePermission, or no gate at all. -/

/-- The HTTP endpoints of the three routers. -/
inductive Endpoint where
  | authBootstrap | authValidate | apiKeysList | apiKeyRevoke | apiKeyGenerate
  | devicesList | deviceMe | deviceGet | deviceUpdate | deviceTrust
  | deviceUntrust | deviceDelete | deviceStats | deviceRegister | deviceDiscover
  | filesList | fileUpload | fileDownload | fileInfo | fileDelete | filesCleanup
deriving DecidableEq

/-- Which endpoints are declared with the authenticateRequest middleware in
the source.  Notably, GET /api-keys and DELETE /api-keys/:keyId in
routes/auth.js are declared without it. -/
def requiresAuth : Endpoint → Bool
  | .apiKeyGenerate | .devicesList | .deviceMe | .deviceGet | .deviceUpdate
  | .deviceTrust | .deviceUntrust | .deviceDelete | .deviceStats
  | .fileDelete | .filesCleanup => true
  | _ => false

/-- The permission each authenticated endpoint demands via
requirePermission in the source. -/
def requiredPerm : Endpoint → Option String
  | .apiKeyGenerate => some "write"
  | .devicesList => some "read"
  | .deviceMe => some "read"
  | .deviceGet => some "read"
  | .deviceStats => some "read"
  | .deviceUpdate => some "write"
  | .deviceTrust => some "write"
  | .deviceUntrust => some "write"
  | .deviceDelete => some "write"
  | .fileDelete => some "write"
  | .filesCleanup => some "write"
  | _ => none

/-- Outcome of the middleware chain in front of a handler. -/
inductive GateOutcome where
  | proceed (p : Option Principal)
  | unauthenticated (e : AuthErr)
  | forbidden
deriving DecidableEq

/-- Run the middleware chain of an endpoint: endpoints without
authenticateRequest go straight to the handler; the others authenticate
and then check the required permission. -/
def gateCheck (ep : Endpoint) (keys : List ApiKeyRec) (headerKey queryKey : Option (List Nat))
    (now : Nat) : GateOutcome :=
  if requiresAuth ep then
    match authenticateRequest keys headerKey queryKey now with
    | .error e => .unauthenticated e
    | .ok p =>
      match requiredPerm ep with
      | none => .proceed (some p)
      | some perm => if requirePermission perm p then .proceed (some p) else .forbidden
  else .proceed none

/-- DELETE /api-keys/:keyId as routed: middleware chain, then the revoke
handler.  The Bool reports whether the handler ran (success response). -/
def revokeApiKeyEndpoint (keys : List ApiKeyRec) (headerKey queryKey : Option (List Nat))
    (keyId : String) (now : Nat) : List ApiKeyRec × Bool :=
  match gateCheck .apiKeyRevoke keys headerKey queryKey now with
  | .proceed _ => (revokeApiKey keyId keys, true)
  | _ => (keys, false)

/-- Concrete api_keys table with a single active admin key, for the C1
counterexample run. -/
def demoKeys : List ApiKeyRec :=
  [{ id := "k1", keyHash := hashApiKey [1, 2], deviceId := "self",
     permissions := ["read", "write", "admin"], createdAt := 0,
     expiresAt := none, isActive := true }]

/-- C1: evaluating the code at the failing input.  A request presenting no
API key at all (no X-API-Key header, no apiKey query parameter) reaches
the DELETE /api-keys/:keyId handler and successfully revokes the key, and
likewise reaches the GET /api-keys and POST /api/devices/register
handlers, because those routes lack the authenticateRequest middleware;
only POST /api-key (generate) among the key-management routes is gated.
The claim requires every API-key management operation to reject such a
caller with an authentication error. -/
theorem unauthenticated_revoke_succeeds :
    (revokeApiKeyEndpoint demoKeys none none "k1" 0).2 = true ∧
    (∀ r ∈ (revokeApiKeyEndpoint demoKeys none none "k1" 0).1, r.isActive = false) ∧
    gateCheck .apiKeysList demoKeys none none 0 = .proceed none ∧
    gateCheck .deviceRegister demoKeys none none 0 = .proceed none ∧
    gateCheck .apiKeyGenerate demoKeys none none 0 = .unauthenticated .keyRequired := by
  refine ⟨by decide, by decide, by decide, by decide, by decide⟩

/-- C7: a key that authenticates successfully fails with the invalid-key
authentication error after revokeApiKey is applied to the id of its row,
while the hash row itself is still present in the table, merely with
isActive set to false. -/
theorem revoked_key_fails_auth (keys : List ApiKeyRec) (key : List Nat) (keyId : String)
    (p : Principal) (now : Nat)
    (hok : authenticateRequest keys (some key) none now = .ok p)
    (hid : ∀ r ∈ keys, r.keyHash = hashApiKey key → r.id = keyId) :
    authenticateRequest (revokeApiKey keyId keys) (some key) none now = .error .keyInvalid ∧
    ∃ r ∈ revokeApiKey keyId keys,
      r.id = keyId ∧ r.keyHash = hashApiKey key ∧ r.isActive = false := by
  by_cases hk : key.isEmpty
  · exfalso
    simp [authenticateRequest, jsOr, jsTruthy, hk] at hok
  · have htr : jsTruthy (jsOr (some key) none) = true := by
      simp [jsOr, jsTruthy, hk]
    obtain ⟨r, hrfind⟩ :
        ∃ r, keys.find? (fun r => r.keyHash == hashApiKey key && r.isActive) = some r := by
      rcases hfind : keys.find? (fun r => r.keyHash == hashApiKey key && r.isActive) with _ | r
      · exfalso
        simp [authenticateRequest, jsOr, jsTruthy, hk, hfind] at hok
      · exact ⟨r, hfind⟩
    have hrmem := List.mem_of_find?_eq_some hrfind
    have hrprop := List.find?_some hrfind
    have hrhash : r.keyHash = hashApiKey key := by
      have := (Bool.and_eq_true _ _).mp hrprop
      exact eq_of_beq this.1
    have hract : r.isActive = true := ((Bool.and_eq_true _ _).mp hrprop).2
    have hrid : r.id = keyId := hid r hrmem hrhash
    constructor
    · have hnone : (revokeApiKey keyId keys).find?
          (fun r => r.keyHash == hashApiKey key && r.isActive) = none := by
        rw [List.find?_eq_none]
        intro x hx
        rw [revokeApiKey, List.mem_map] at hx
        obtain ⟨y, hy, hxy⟩ := hx
        subst hxy
        by_cases hyid : (y.id == keyId) = true
        · rw [if_pos hyid]
          simp
        · rw [if_neg hyid]
          intro hcontra
          have hpair := (Bool.and_eq_true _ _).mp hcontra
          have hyhash : y.keyHash = hashApiKey key := eq_of_beq hpair.1
          have hyid2 := hid y hy hyhash
          simp [hyid2] at hyid
      simp [authenticateRequest, jsOr, jsTruthy, hk, hnone]
    · refine ⟨{ r with isActive := false }, ?_, by simpa using hrid, by simpa using hrhash, rfl⟩
      rw [revokeApiKey, List.mem_map]
      exact ⟨r, hrmem, by simp [hrid]⟩

/-- C7 witness: the concrete single-key table demoKeys with the key value
[1, 2]. -/
theorem revoked_key_fails_auth_witness :
    (authenticateRequest demoKeys (some [1, 2]) none 0 =
      .ok { id := "k1", deviceId := "self", permissions := ["read", "write", "admin"] }) ∧
    (authenticateRequest (revokeApiKey "k1" demoKeys) (some [1, 2]) none 0 =
      .error .keyInvalid ∧
    ∃ r ∈ revokeApiKey "k1" demoKeys,
      r.id = "k1" ∧ r.keyHash = hashApiKey [1, 2] ∧ r.isActive = false) :=
  ⟨by decide,
    revoked_key_fails_auth demoKeys [1, 2] "k1"
      { id := "k1", deviceId := "self", permissions := ["read", "write", "admin"] } 0
      (by decide) (by decide)⟩

/-- C9: a request carrying the API key in the apiKey query parameter
authenticates with exactly the same outcome (same principal, same error)
as a request carrying the same key in the X-API-Key header, on every key
table and at every time. -/
theorem header_query_key_equivalent (keys : List ApiKeyRec) (key : List Nat) (now : Nat) :
    authenticateRequest keys (some key) none now =
      authenticateRequest keys none (some key) now := by
  rcases key with _ | ⟨b, r⟩
  · simp [authenticateRequest, jsOr, jsTruthy]
  · simp [authenticateRequest, jsOr, jsTruthy]

/-! ## Devices (lib/deviceManager.js)

Rows of the devices table.  The schema defaults last_seen and created_at
to CURRENT_TIMESTAMP and is_trusted to 0; each INSERT in the source
either relies on those defaults or overrides is_trusted explicitly. -/

/-- Row of the devices table. -/
structure DeviceRec where
  id : String
  name : String
  ipAddress : String
  fingerprint : Option (List Nat)
  lastSeen : Nat
  isTrusted : Bool
  createdAt : Nat
deriving DecidableEq

/-- The devices row INSERTed by registerDevice for a fresh self identity:
is_trusted is set to 1. -/
def selfDeviceRow (selfId selfName ip : String) (fp : List Nat) (now : Nat) : DeviceRec :=
  { id := selfId, name := selfName, ipAddress := ip, fingerprint := some fp,
    lastSeen := now, isTrusted := true, createdAt := now }

/-- DeviceManager.registerDevice: upsert of the node's own device row; a
fresh self row is inserted with is_trusted = 1. -/
def registerDevice (devices : List DeviceRec) (selfId selfName ip : String)
    (fp : List Nat) (now : Nat) : List DeviceRec :=
  if devices.any (fun d => d.id == selfId) then
    devices.map (fun d =>
      if d.id == selfId then
        { d with name := selfName, ipAddress := ip, fingerprint := some fp, lastSeen := now }
      else d)
  else
    devices ++ [selfDeviceRow selfId selfName ip fp now]

/-- The devices row INSERTed by addDiscoveredDevice for a fresh device:
is_trusted is set to 0. -/
def discoveredRow (deviceId deviceName ipAddr : String) (publicKey : List Nat)
    (now : Nat) : DeviceRec :=
  { id := deviceId, name := deviceName, ipAddress := ipAddr,
    fingerprint := some (generateFingerprint publicKey),
    lastSeen := now, isTrusted := false, createdAt := now }

/-- DeviceManager.addDiscoveredDevice: upsert of an externally registered
or discovered device; a fresh row is inserted with is_trusted = 0, and the
node never adds itself through this path. -/
def addDiscoveredDevice (devices : List DeviceRec) (selfId deviceId deviceName ipAddr : String)
    (publicKey : List Nat) (now : Nat) : List DeviceRec :=
  if deviceId == selfId then devices
  else if devices.any (fun d => d.id == deviceId) then
    devices.map (fun d =>
      if d.id == deviceId then
        { d with name := deviceName, ipAddress := ipAddr,
                 fingerprint := some (generateFingerprint publicKey), lastSeen := now }
      else d)
  else
    devices ++ [discoveredRow deviceId deviceName ipAddr publicKey now]

/-! ## Files (routes/files.js)

The files table and the uploads directory.  Paths are modelled relative
to the uploads directory, so multer's generated path, path.basename and
path.join are all the bare stored name; the encrypted blob for an upload
staged at path p is stored under p ++ ".enc". -/

/-- Row of the files table. -/
structure FileRec where
  id : String
  filename : String
  originalName : String
  size : Nat
  mimeType : String
  deviceId : String
  encryptionKey : List Nat
  uploadTime : Nat
  expiresAt : Option Nat
  downloadCount : Nat
  isDeleted : Bool
deriving DecidableEq

/-- The uploads directory: stored names with their byte contents. -/
abbrev Disk := List (String × List Nat)

/-- fs.readFileSync: the contents stored under a name, if present. -/
def lookupDisk (d : Disk) (n : String) : Option (List Nat) :=
  (d.find? (fun e => e.1 == n)).map (fun e => e.2)

/-- fs.existsSync. -/
def diskHas (d : Disk) (n : String) : Bool :=
  d.any (fun e => e.1 == n)

/-- Remove every entry stored under a name. -/
def removeName (n : String) (d : Disk) : Disk :=
  d.filter (fun e => !(e.1 == n))

/-- fs.writeFileSync: overwrite the entry stored under a name. -/
def diskWrite (n : String) (b : List Nat) (d : Disk) : Disk :=
  (n, b) :: removeName n d

/-- fs.unlinkSync: remove an existing entry; none models the thrown
ENOENT error when the name is absent. -/
def unlinkDisk (n : String) (d : Disk) : Option Disk :=
  if diskHas d n then some (removeName n d) else none

/-- The persistent state a request handler sees: the three database
tables plus the uploads directory. -/
structure ServerState where
  devices : List DeviceRec
  files : List FileRec
  apiKeys : List ApiKeyRec
  disk : Disk
deriving DecidableEq

/-- The req.file object produced by multer: the staged plaintext path and
the client-supplied name, size and MIME type. -/
structure MulterFile where
  path : String
  originalname : String
  size : Nat
  mimetype : String
deriving DecidableEq

/-- The expiresInMinutes form field, classified by how parseInt treats it:
a numeric string, or a non-numeric one for which parseInt yields NaN so
that toISOString on the resulting invalid Date throws. -/
inductive ExpiryField where
  | numeric (n : Nat)
  | nonNumeric
deriving DecidableEq

/-- Body and connection data of POST /api/files. -/
structure UploadReq where
  file : Option MulterFile
  deviceId : Option String
  deviceName : Option String
  expiresIn : Option ExpiryField
  clientIP : String
deriving DecidableEq

/-- JavaScript truthiness of an optional string field: undefined and the
empty string are falsy. -/
def jsStrTruthy : Option String → Bool
  | none => false
  | some s => !s.isEmpty

/-- The anonymous device display name: the supplied deviceName when
truthy, else the default derived from the client IP. -/
def anonDeviceName (req : UploadReq) : String :=
  if jsStrTruthy req.deviceName then req.deviceName.getD ""
  else "Anonymous Device (" ++ req.clientIP ++ ")"

/-- The devices row inserted for an anonymous upload: the INSERT sets
is_trusted to 1 and leaves fingerprint unset. -/
def anonDeviceRec (req : UploadReq) (anonId : String) (now : Nat) : DeviceRec :=
  { id := anonId, name := anonDeviceName req, ipAddress := req.clientIP,
    fingerprint := none, lastSeen := now, isTrusted := true, createdAt := now }

/-- The expiry computation of the upload handler: expiresInMinutes wins
when truthy but a non-numeric value makes toISOString throw (none); else
the MAX_FILE_AGE environment value (in seconds) applies; else no expiry. -/
def computeExpiry (e : Option ExpiryField) (maxAge : Option Nat) (now : Nat) :
    Option (Option Nat) :=
  match e with
  | some (.numeric n) => some (some (now + n * 60))
  | some .nonNumeric => none
  | none =>
    match maxAge with
    | some s => some (some (now + s))
    | none => some none

/-- Response of POST /api/files. -/
inductive UploadResult where
  | noFile
  | serverError
  | success (fileId deviceId : String) (expiresAt : Option Nat)
deriving DecidableEq

/-- The catch block of the upload handler: try to unlink the staged
plaintext and then the encrypted blob, swallowing any error.  Both
unlinks sit in a single try, so when the plaintext is already gone the
first unlink throws and the encrypted blob is never unlinked. -/
def uploadCatch (st : ServerState) (p : String) : ServerState :=
  match unlinkDisk p st.disk with
  | none => st
  | some d1 =>
    match unlinkDisk (p ++ ".enc") d1 with
    | none => { st with disk := d1 }
    | some d2 => { st with disk := d2 }

/-- The post-insert block of the upload handler that renames the source
device when a deviceName was supplied and differs from the stored name. -/
def updateDeviceName (st : ServerState) (srcId : String) (dn : Option String) : ServerState :=
  if jsStrTruthy dn then
    match st.devices.find? (fun d => d.id == srcId) with
    | some d =>
      if d.name ≠ dn.getD "" then
        { st with devices := st.devices.map (fun d2 =>
            if d2.id == srcId then { d2 with name := dn.getD "" } else d2) }
      else st
    | none => st
  else st

/-- The files row the upload handler INSERTs: filename is the basename of
the encrypted path, upload_time and download_count come from the schema
defaults, is_deleted starts false. -/
def insertedRow (srcId : String) (f : MulterFile) (now : Nat) (fileId : String)
    (key : List Nat) (ea : Option Nat) : FileRec :=
  { id := fileId, filename := f.path ++ ".enc", originalName := f.originalname,
    size := f.size, mimeType := f.mimetype, deviceId := srcId,
    encryptionKey := key, uploadTime := now, expiresAt := ea,
    downloadCount := 0, isDeleted := false }

/-- The upload handler from the device resolution onwards: read the
staged plaintext, encrypt, write the .enc blob, unlink the plaintext,
compute expiry, insert the files row (a duplicate primary key throws) and
run the device-name update.  Any thrown step lands in the catch block. -/
def uploadRest (st : ServerState) (srcId : String) (f : MulterFile) (req : UploadReq)
    (maxAge : Option Nat) (now : Nat) (fileId : String) (key iv : List Nat) :
    ServerState × UploadResult :=
  match lookupDisk st.disk f.path with
  | none => (uploadCatch st f.path, .serverError)
  | some plain =>
    let blob := encryptFile plain key iv
    let st2 := { st with disk := diskWrite (f.path ++ ".enc") blob st.disk }
    match unlinkDisk f.path st2.disk with
    | none => (uploadCatch st2 f.path, .serverError)
    | some disk3 =>
      let st3 := { st2 with disk := disk3 }
      match computeExpiry req.expiresIn maxAge now with
      | none => (uploadCatch st3 f.path, .serverError)
      | some ea =>
        if st3.files.any (fun g => g.id == fileId) then (uploadCatch st3 f.path, .serverError)
        else
          let st4 := { st3 with files := st3.files ++ [insertedRow srcId f now fileId key ea] }
          (updateDeviceName st4 srcId req.deviceName, .success fileId srcId ea)

/-- POST /api/files: reject a missing file, resolve the source device (a
truthy supplied deviceId is used verbatim with no lookup; otherwise an
anonymous device is found by (name, ip) or inserted as trusted), then run
the rest of the handler.  fileId, anonId, key and iv stand for the fresh
uuids, generated key and random iv drawn during the request. -/
def uploadFile (st : ServerState) (req : UploadReq) (maxAge : Option Nat) (now : Nat)
    (fileId anonId : String) (key iv : List Nat) : ServerState × UploadResult :=
  match req.file with
  | none => (st, .noFile)
  | some f =>
    if jsStrTruthy req.deviceId then
      uploadRest st (req.deviceId.getD "") f req maxAge now fileId key iv
    else
      match st.devices.find? (fun d => d.name == anonDeviceName req &&
          d.ipAddress == req.clientIP) with
      | some d => uploadRest st d.id f req maxAge now fileId key iv
      | none =>
        if st.devices.any (fun d => d.id == anonId) then (uploadCatch st f.path, .serverError)
        else
          uploadRest { st with devices := st.devices ++ [anonDeviceRec req anonId now] }
            anonId f req maxAge now fileId key iv

/-- The WHERE clause shared by the download, info and delete handlers:
match on id among non-deleted rows. -/
def downloadQuery (fileId : String) (f : FileRec) : Bool :=
  f.id == fileId && !f.isDeleted

/-- The expiry test of the download and info handlers:
file.expires_at && new Date() > new Date(file.expires_at). -/
def expiredCheck : Option Nat → Nat → Bool
  | none, _ => false
  | some e, now => decide (now > e)

/-- Response of GET /api/files/:fileId. -/
inductive DownloadResult where
  | notFound
  | expired
  | notOnDisk
  | decryptFailed
  | ok (bytes : List Nat)
deriving DecidableEq

/-- GET /api/files/:fileId: fetch the non-deleted row, reject strictly
past expiry, read the blob from disk, decrypt, and on success increment
download_count and return the plaintext. -/
def downloadFile (st : ServerState) (fileId : String) (now : Nat) :
    ServerState × DownloadResult :=
  match st.files.find? (downloadQuery fileId) with
  | none => (st, .notFound)
  | some f =>
    if expiredCheck f.expiresAt now then (st, .expired)
    else
      match lookupDisk st.disk f.filename with
      | none => (st, .notOnDisk)
      | some blob =>
        match decryptFile blob f.encryptionKey with
        | none => (st, .decryptFailed)
        | some pt =>
          ({ st with files := st.files.map (fun g =>
              if g.id == fileId then { g with downloadCount := g.downloadCount + 1 } else g) },
            .ok pt)

/-- Response of GET /api/files/:fileId/info. -/
inductive InfoResult where
  | notFound
  | expired
  | ok (f : FileRec)
deriving DecidableEq

/-- GET /api/files/:fileId/info: fetch the non-deleted row and reject
strictly past expiry; no state change. -/
def fileInfoOp (st : ServerState) (fileId : String) (now : Nat) : InfoResult :=
  match st.files.find? (downloadQuery fileId) with
  | none => .notFound
  | some f => if expiredCheck f.expiresAt now then .expired else .ok f

/-- UTC date index of a timestamp (timestamps are seconds since the
epoch): the value rendered by the ten-byte date prefix shared by the two
timestamp text formats the code stores and compares. -/
def day (t : Nat) : Nat := t / 86400

/-- The SQL comparison expires_at > datetime-now as sqlite evaluates
it.  The upload handler stores expires_at as toISOString text
(YYYY-MM-DDTHH:MM:SS.sssZ) while the sqlite datetime-now function produces
YYYY-MM-DD HH:MM:SS; both operands are TEXT, so sqlite compares raw
bytes.  The formats share the ten-byte date prefix, so unequal dates are
decided by the dates; on equal dates the eleventh byte decides, and the
ISO separator T (0x54) exceeds the space (0x20), so the ISO text
compares greater.  The comparison therefore holds iff the expiry date is
on or after the current date. -/
def isoTextGtNow (e now : Nat) : Bool := decide (day now ≤ day e)

/-- The SQL comparison expires_at < CURRENT_TIMESTAMP as sqlite evaluates
it: CURRENT_TIMESTAMP has the same YYYY-MM-DD HH:MM:SS format as the
datetime-now function, so by the byte comparison above the ISO text is
smaller iff its date prefix is strictly smaller. -/
def isoTextLtNow (e now : Nat) : Bool := decide (day e < day now)

/-- The WHERE clause of the list query: non-deleted, optional device
filter, and expires_at IS NULL OR expires_at > datetime-now, the latter
under the raw-text comparison isoTextGtNow. -/
def listQuery (dev : Option String) (now : Nat) (f : FileRec) : Bool :=
  !f.isDeleted &&
  (match dev with
   | some d => if d.isEmpty then true else f.deviceId == d
   | none => true) &&
  (match f.expiresAt with
   | none => true
   | some e => isoTextGtNow e now)

/-- Insert a row into a list sorted by descending upload_time. -/
def insertDesc (f : FileRec) : List FileRec → List FileRec
  | [] => [f]
  | g :: r => if g.uploadTime ≥ f.uploadTime then g :: insertDesc f r else f :: g :: r

/-- ORDER BY upload_time DESC. -/
def sortByUploadDesc : List FileRec → List FileRec
  | [] => []
  | f :: r => insertDesc f (sortByUploadDesc r)

/-- GET /api/files: filter, order, then OFFSET and LIMIT. -/
def listFiles (st : ServerState) (dev : Option String) (lim off now : Nat) : List FileRec :=
  ((sortByUploadDesc (st.files.filter (listQuery dev now))).drop off).take lim

/-- Response of DELETE /api/files/:fileId. -/
inductive DeleteResult where
  | notFound
  | ok
deriving DecidableEq

/-- Set is_deleted = 1 on the row with the given id. -/
def setDeleted (fid : String) (files : List FileRec) : List FileRec :=
  files.map (fun g => if g.id == fid then { g with isDeleted := true } else g)

/-- DELETE /api/files/:fileId: fetch the non-deleted row, mark it deleted,
and best-effort unlink its blob from disk. -/
def deleteFileOp (st : ServerState) (fileId : String) : ServerState × DeleteResult :=
  match st.files.find? (downloadQuery fileId) with
  | none => (st, .notFound)
  | some f =>
    let st1 := { st with files := setDeleted fileId st.files }
    if diskHas st1.disk f.filename then
      ({ st1 with disk := removeName f.filename st1.disk }, .ok)
    else (st1, .ok)

/-- The WHERE clause of the cleanup sweep: expires_at IS NOT NULL AND
expires_at < CURRENT_TIMESTAMP AND is_deleted = 0, the comparison under
the raw-text semantics isoTextLtNow. -/
def cleanupQuery (now : Nat) (f : FileRec) : Bool :=
  (match f.expiresAt with
   | none => false
   | some e => isoTextLtNow e now) && !f.isDeleted

/-- One iteration of the cleanup loop: mark the row deleted and
best-effort unlink its blob; the cleaned counter advances unless the
unlink throws, which the model's unlink never does. -/
def cleanupOne (acc : ServerState × Nat) (f : FileRec) : ServerState × Nat :=
  let st1 := { acc.1 with files := setDeleted f.id acc.1.files }
  if diskHas st1.disk f.filename then
    ({ st1 with disk := removeName f.filename st1.disk }, acc.2 + 1)
  else (st1, acc.2 + 1)

/-- POST /api/files/cleanup: sweep the expired non-deleted rows, returning
(state, cleanedFiles, expiredFiles). -/
def cleanupOp (st : ServerState) (now : Nat) : ServerState × Nat × Nat :=
  let expired := st.files.filter (cleanupQuery now)
  let r := expired.foldl cleanupOne (st, 0)
  (r.1, r.2, expired.length)

/-- The operations of the files subsystem, for stating state-machine
invariants over every handler. -/
inductive Op where
  | upload (req : UploadReq) (maxAge : Option Nat) (now : Nat) (fileId anonId : String)
      (key iv : List Nat)
  | download (fileId : String) (now : Nat)
  | info (fileId : String) (now : Nat)
  | listF (dev : Option String) (lim off now : Nat)
  | delF (fileId : String)
  | cleanup (now : Nat)

/-- The state transition each operation performs. -/
def step (st : ServerState) : Op → ServerState
  | .upload req mA now fid aid k iv => (uploadFile st req mA now fid aid k iv).1
  | .download fid now => (downloadFile st fid now).1
  | .info _ _ => st
  | .listF _ _ _ _ => st
  | .delF fid => (deleteFileOp st fid).1
  | .cleanup now => (cleanupOp st now).1

/-! ## C4: the upload failure path leaves an orphaned ciphertext -/

/-- State just before the upload handler body runs: multer has staged the
plaintext under name p, the tables are empty. -/
def stagedState : ServerState :=
  { devices := [], files := [], apiKeys := [], disk := [("p", [1, 2, 3])] }

/-- An upload request whose expiresInMinutes field is a non-numeric
string, so that toISOString throws after the ciphertext has been written
and the staged plaintext removed. -/
def badExpiryReq : UploadReq :=
  { file := some { path := "p", originalname := "a.txt", size := 3, mimetype := "text/plain" },
    deviceId := some "d1", deviceName := none,
    expiresIn := some .nonNumeric, clientIP := "ip" }

set_option maxRecDepth 8000 in
/-- C4: evaluating the code at the failing input.  An upload that fails
while computing the expiry (non-numeric expiresInMinutes) after the
encrypted blob was written and the plaintext unlinked ends with no files
row, but the encrypted blob p.enc is still on disk: in the catch block
the first unlink (of the already-removed plaintext) throws, the catch
around the pair swallows it, and the unlink of p.enc never runs.  The
claim requires that no ciphertext blob remain on the failure path. -/
theorem failed_upload_leaves_orphan_blob :
    (uploadFile stagedState badExpiryReq none 0 "fid" "aid" (List.range 32)
      (List.range 16)).2 = .serverError ∧
    (uploadFile stagedState badExpiryReq none 0 "fid" "aid" (List.range 32)
      (List.range 16)).1.files = [] ∧
    lookupDisk (uploadFile stagedState badExpiryReq none 0 "fid" "aid" (List.range 32)
      (List.range 16)).1.disk "p.enc" =
      some (encryptFile [1, 2, 3] (List.range 32) (List.range 16)) ∧
    diskHas (uploadFile stagedState badExpiryReq none 0 "fid" "aid" (List.range 32)
      (List.range 16)).1.disk "p" = false := by
  refine ⟨by decide, by decide, by decide, by decide⟩

/-! ## C5: the accessibility predicate at list, info and download time -/

/-- Comparison definition taken from the spec wording: a File Record is
accessible iff not deleted and (expiresAt is null or now is strictly
before expiresAt). -/
def specAccessible (f : FileRec) (now : Nat) : Bool :=
  !f.isDeleted &&
  (match f.expiresAt with
   | none => true
   | some e => decide (now < e))

/-- A record at its exact expiry instant, decryptable from disk. -/
def boundaryFile : FileRec :=
  { id := "f1", filename := "n.enc", originalName := "n.txt", size := 3, mimeType := "t",
    deviceId := "d1", encryptionKey := List.range 32, uploadTime := 0, expiresAt := some 5,
    downloadCount := 0, isDeleted := false }

/-- State holding boundaryFile and its encrypted blob. -/
def boundaryState : ServerState :=
  { devices := [], files := [boundaryFile], apiKeys := [],
    disk := [("n.enc", encryptFile [7, 8, 9] (List.range 32) (List.range 16))] }

set_option maxRecDepth 8000 in
/-- C5 counterexample: at the instant now = expiresAt the record is
inaccessible under the claimed predicate (now < expiresAt fails), yet
every site still serves it: download returns the plaintext and info the
record (their strict now > expiresAt test has not tripped), and the list
query still returns the row, because sqlite compares the ISO-format
expires_at text against the differently formatted datetime-now text by
raw bytes and any same-date expiry compares greater.  The claim requires
an inaccessible record to be excluded from listings and rejected by info
and download. -/
theorem inaccessible_record_listed_and_served :
    specAccessible boundaryFile 5 = false ∧
    (downloadFile boundaryState "f1" 5).2 = .ok [7, 8, 9] ∧
    fileInfoOp boundaryState "f1" 5 = .ok boundaryFile ∧
    listFiles boundaryState none 50 0 5 = [boundaryFile] := by
  refine ⟨by decide, by decide, by decide, by decide⟩

theorem mem_insertDesc {f a : FileRec} {l : List FileRec} :
    a ∈ insertDesc f l ↔ a = f ∨ a ∈ l := by
  induction l with
  | nil => simp [insertDesc]
  | cons g r ih =>
    simp only [insertDesc]
    by_cases h : g.uploadTime ≥ f.uploadTime
    · rw [if_pos h]
      simp only [List.mem_cons, ih]
      tauto
    · rw [if_neg h]
      simp [List.mem_cons]

theorem mem_sortByUploadDesc {a : FileRec} :
    ∀ {l : List FileRec}, a ∈ sortByUploadDesc l ↔ a ∈ l
  | [] => by simp [sortByUploadDesc]
  | f :: r => by
    simp [sortByUploadDesc, mem_insertDesc, mem_sortByUploadDesc (l := r)]

theorem mem_listFiles {a : FileRec} {st : ServerState} {dev : Option String}
    {lim off now : Nat} (h : a ∈ listFiles st dev lim off now) :
    a ∈ st.files ∧ listQuery dev now a = true := by
  unfold listFiles at h
  have h1 := List.mem_of_mem_take h
  have h2 := List.mem_of_mem_drop h1
  rw [mem_sortByUploadDesc] at h2
  exact ⟨(List.mem_filter.mp h2).1, (List.mem_filter.mp h2).2⟩

theorem expiredCheck_iff {o : Option Nat} {now : Nat} :
    expiredCheck o now = true ↔ ∃ e, o = some e ∧ now > e := by
  cases o <;> simp [expiredCheck]

theorem day_mono {a b : Nat} (h : a ≤ b) : day a ≤ day b :=
  Nat.div_le_div_right h

/-- C5 amended: download and info reject a fetched record as expired iff
now is strictly after expiresAt (JS Date instant comparison); the list
query instead compares the stored ISO-format expires_at text against the
differently formatted datetime-now text by raw bytes, which holds iff
the expiry UTC date is on or after the UTC date of now.  So the list
never drops a record the claimed predicate deems accessible, but a
record whose expiry instant has passed is still listed for the rest of
its expiry UTC date even while download and info already report it
expired; no single predicate is applied at all three sites. -/
theorem expiry_checks_divergent (st : ServerState) (fid : String) (f : FileRec)
    (now lim off : Nat) (dev : Option String)
    (hf : st.files.find? (downloadQuery fid) = some f) :
    ((downloadFile st fid now).2 = .expired ↔ ∃ e, f.expiresAt = some e ∧ now > e) ∧
    (fileInfoOp st fid now = .expired ↔ ∃ e, f.expiresAt = some e ∧ now > e) ∧
    (∀ g ∈ listFiles st dev lim off now, g.isDeleted = false ∧
      (g.expiresAt = none ∨ ∃ e, g.expiresAt = some e ∧ day now ≤ day e)) ∧
    (∀ (g : FileRec) (now2 : Nat), specAccessible g now2 = true →
      listQuery none now2 g = true) ∧
    (∀ e, f.expiresAt = some e → now > e → day now = day e →
      listQuery none now f = true ∧ (downloadFile st fid now).2 = .expired ∧
      specAccessible f now = false) := by
  have hdl : (downloadFile st fid now).2 = .expired ↔
      expiredCheck f.expiresAt now = true := by
    rcases Bool.eq_false_or_eq_true (expiredCheck f.expiresAt now) with hec | hec
    · rcases hlk : lookupDisk st.disk f.filename with _ | blob
      · simp [downloadFile, hf, hec, hlk]
      · rcases hdc : decryptFile blob f.encryptionKey with _ | pt
        · simp [downloadFile, hf, hec, hlk, hdc]
        · simp [downloadFile, hf, hec, hlk, hdc]
    · rcases hlk : lookupDisk st.disk f.filename with _ | blob
      · simp [downloadFile, hf, hec, hlk]
      · rcases hdc : decryptFile blob f.encryptionKey with _ | pt
        · simp [downloadFile, hf, hec, hlk, hdc]
        · simp [downloadFile, hf, hec, hlk, hdc]
  have hinfo : fileInfoOp st fid now = .expired ↔
      expiredCheck f.expiresAt now = true := by
    rcases Bool.eq_false_or_eq_true (expiredCheck f.expiresAt now) with hec | hec <;>
      simp [fileInfoOp, hf, hec]
  refine ⟨hdl.trans expiredCheck_iff, hinfo.trans expiredCheck_iff, ?_, ?_, ?_⟩
  · intro g hg
    obtain ⟨-, hq⟩ := mem_listFiles hg
    unfold listQuery at hq
    rcases (Bool.and_eq_true _ _).mp hq with ⟨hq1, hq3⟩
    rcases (Bool.and_eq_true _ _).mp hq1 with ⟨hnd, -⟩
    refine ⟨by simpa using hnd, ?_⟩
    rcases hexp : g.expiresAt with _ | e
    · exact Or.inl rfl
    · right
      refine ⟨e, rfl, ?_⟩
      rw [hexp] at hq3
      simpa [isoTextGtNow] using hq3
  · intro g now2 hacc
    rcases hexp : g.expiresAt with _ | e
    · simp [specAccessible, hexp] at hacc
      simp [listQuery, hexp, hacc]
    · simp [specAccessible, hexp] at hacc
      simp [listQuery, hexp, hacc.1, isoTextGtNow, day_mono (Nat.le_of_lt hacc.2)]
  · intro e he hgt hday
    have hq : downloadQuery fid f = true := List.find?_some hf
    have hnd : f.isDeleted = false := by
      have := (Bool.and_eq_true _ _).mp hq
      simpa using this.2
    refine ⟨?_, ?_, ?_⟩
    · simp [listQuery, he, hnd, isoTextGtNow, Nat.le_of_eq hday]
    · rw [hdl, he]
      simp [expiredCheck, hgt]
    · simp [specAccessible, he, Nat.lt_asymm hgt]

set_option maxRecDepth 8000 in
/-- C5 amended witness: the boundary state at time 3 (before expiry). -/
theorem expiry_checks_divergent_witness :
    boundaryState.files.find? (downloadQuery "f1") = some boundaryFile ∧
    (((downloadFile boundaryState "f1" 3).2 = .expired ↔
        ∃ e, boundaryFile.expiresAt = some e ∧ 3 > e) ∧
      (fileInfoOp boundaryState "f1" 3 = .expired ↔
        ∃ e, boundaryFile.expiresAt = some e ∧ 3 > e) ∧
      (∀ g ∈ listFiles boundaryState none 50 0 3, g.isDeleted = false ∧
        (g.expiresAt = none ∨ ∃ e, g.expiresAt = some e ∧ day 3 ≤ day e)) ∧
      (∀ (g : FileRec) (now2 : Nat), specAccessible g now2 = true →
        listQuery none now2 g = true) ∧
      (∀ e, boundaryFile.expiresAt = some e → 3 > e → day 3 = day e →
        listQuery none 3 boundaryFile = true ∧
        (downloadFile boundaryState "f1" 3).2 = .expired ∧
        specAccessible boundaryFile 3 = false)) :=
  ⟨by decide, expiry_checks_divergent boundaryState "f1" boundaryFile 3 50 0 none (by decide)⟩

/-! ## C6: File Record mutation discipline and tombstone permanence -/

/-- The permitted evolution of an existing files row under one handler:
every field preserved except that download_count may grow by one and
is_deleted may be set to true. -/
def evolves (f g : FileRec) : Prop :=
  g.id = f.id ∧ g.filename = f.filename ∧ g.originalName = f.originalName ∧
  g.size = f.size ∧ g.mimeType = f.mimeType ∧ g.deviceId = f.deviceId ∧
  g.encryptionKey = f.encryptionKey ∧ g.uploadTime = f.uploadTime ∧
  g.expiresAt = f.expiresAt ∧
  (g.downloadCount = f.downloadCount ∨ g.downloadCount = f.downloadCount + 1) ∧
  (g.isDeleted = f.isDeleted ∨ g.isDeleted = true)

/-- Deletion-only evolution: like evolves but with the download counter
unchanged; closed under composition, which the cleanup loop needs. -/
def evolvesD (f g : FileRec) : Prop :=
  g.id = f.id ∧ g.filename = f.filename ∧ g.originalName = f.originalName ∧
  g.size = f.size ∧ g.mimeType = f.mimeType ∧ g.deviceId = f.deviceId ∧
  g.encryptionKey = f.encryptionKey ∧ g.uploadTime = f.uploadTime ∧
  g.expiresAt = f.expiresAt ∧ g.downloadCount = f.downloadCount ∧
  (g.isDeleted = f.isDeleted ∨ g.isDeleted = true)

theorem evolves_refl (f : FileRec) : evolves f f := by
  simp [evolves]

theorem evolvesD_refl (f : FileRec) : evolvesD f f := by
  simp [evolvesD]

theorem evolvesD_evolves {f g : FileRec} (h : evolvesD f g) : evolves f g := by
  obtain ⟨h1, h2, h3, h4, h5, h6, h7, h8, h9, h10, h11⟩ := h
  exact ⟨h1, h2, h3, h4, h5, h6, h7, h8, h9, Or.inl h10, h11⟩

theorem evolvesD_trans {f g h : FileRec} (hfg : evolvesD f g) (hgh : evolvesD g h) :
    evolvesD f h := by
  obtain ⟨a1, a2, a3, a4, a5, a6, a7, a8, a9, a10, a11⟩ := hfg
  obtain ⟨b1, b2, b3, b4, b5, b6, b7, b8, b9, b10, b11⟩ := hgh
  refine ⟨b1.trans a1, b2.trans a2, b3.trans a3, b4.trans a4, b5.trans a5,
    b6.trans a6, b7.trans a7, b8.trans a8, b9.trans a9, b10.trans a10, ?_⟩
  rcases b11 with b11 | b11
  · rcases a11 with a11 | a11
    · exact Or.inl (b11.trans a11)
    · exact Or.inr (b11.trans a11)
  · exact Or.inr b11

theorem forall2_evolves_refl (l : List FileRec) : List.Forall₂ evolves l l := by
  induction l with
  | nil => exact List.Forall₂.nil
  | cons f r ih => exact List.Forall₂.cons (evolves_refl f) ih

theorem forall2_evolvesD_refl (l : List FileRec) : List.Forall₂ evolvesD l l := by
  induction l with
  | nil => exact List.Forall₂.nil
  | cons f r ih => exact List.Forall₂.cons (evolvesD_refl f) ih

theorem forall2_evolves_map (l : List FileRec) (h : FileRec → FileRec)
    (hh : ∀ f, evolves f (h f)) : List.Forall₂ evolves l (l.map h) := by
  induction l with
  | nil => exact List.Forall₂.nil
  | cons f r ih => exact List.Forall₂.cons (hh f) ih

theorem forall2_evolvesD_map (l : List FileRec) (h : FileRec → FileRec)
    (hh : ∀ f, evolvesD f (h f)) : List.Forall₂ evolvesD l (l.map h) := by
  induction l with
  | nil => exact List.Forall₂.nil
  | cons f r ih => exact List.Forall₂.cons (hh f) ih

theorem forall2_evolvesD_trans {l1 l2 l3 : List FileRec}
    (h1 : List.Forall₂ evolvesD l1 l2) (h2 : List.Forall₂ evolvesD l2 l3) :
    List.Forall₂ evolvesD l1 l3 := by
  induction h1 generalizing l3 with
  | nil => cases h2; exact .nil
  | cons hfg hrest ih =>
    cases h2 with
    | cons hgh hrest2 => exact .cons (evolvesD_trans hfg hgh) (ih hrest2)

theorem setDeleted_forall2 (fid : String) (l : List FileRec) :
    List.Forall₂ evolvesD l (setDeleted fid l) := by
  unfold setDeleted
  apply forall2_evolvesD_map
  intro f
  by_cases h : (f.id == fid) = true
  · rw [if_pos h]
    exact ⟨rfl, rfl, rfl, rfl, rfl, rfl, rfl, rfl, rfl, rfl, Or.inr rfl⟩
  · rw [if_neg h]
    exact evolvesD_refl f

theorem cleanupOne_files (acc : ServerState × Nat) (f : FileRec) :
    (cleanupOne acc f).1.files = setDeleted f.id acc.1.files := by
  simp only [cleanupOne]
  split <;> rfl

theorem cleanup_foldl_forall2 :
    ∀ (expired : List FileRec) (st : ServerState) (c : Nat),
      List.Forall₂ evolvesD st.files (expired.foldl cleanupOne (st, c)).1.files
  | [], _, _ => forall2_evolvesD_refl _
  | f :: r, st, c => by
    rw [List.foldl_cons]
    have step1 : List.Forall₂ evolvesD st.files (cleanupOne (st, c) f).1.files := by
      rw [cleanupOne_files]
      exact setDeleted_forall2 f.id st.files
    have step2 := cleanup_foldl_forall2 r (cleanupOne (st, c) f).1 (cleanupOne (st, c) f).2
    rw [Prod.mk.eta] at step2
    exact forall2_evolvesD_trans step1 step2

theorem uploadCatch_files (st : ServerState) (p : String) :
    (uploadCatch st p).files = st.files := by
  unfold uploadCatch
  rcases h1 : unlinkDisk p st.disk with _ | d1
  · simp [h1]
  · rcases h2 : unlinkDisk (p ++ ".enc") d1 with _ | d2 <;> simp [h1, h2]

theorem uploadCatch_devices (st : ServerState) (p : String) :
    (uploadCatch st p).devices = st.devices := by
  unfold uploadCatch
  rcases h1 : unlinkDisk p st.disk with _ | d1
  · simp [h1]
  · rcases h2 : unlinkDisk (p ++ ".enc") d1 with _ | d2 <;> simp [h1, h2]

theorem updateDeviceName_files (st : ServerState) (srcId : String) (dn : Option String) :
    (updateDeviceName st srcId dn).files = st.files := by
  unfold updateDeviceName
  split
  · split
    · split <;> rfl
    · rfl
  · rfl

theorem uploadRest_files_append (st : ServerState) (srcId : String) (f : MulterFile)
    (req : UploadReq) (mA : Option Nat) (now : Nat) (fid : String) (key iv : List Nat) :
    ∃ t, (uploadRest st srcId f req mA now fid key iv).1.files = st.files ++ t := by
  unfold uploadRest
  rcases h1 : lookupDisk st.disk f.path with _ | plain
  · exact ⟨[], by simp [h1, uploadCatch_files]⟩
  · simp only [h1]
    rcases h2 : unlinkDisk f.path
        (diskWrite (f.path ++ ".enc") (encryptFile plain key iv) st.disk) with _ | d3
    · exact ⟨[], by simp [h2, uploadCatch_files]⟩
    · simp only [h2]
      rcases h3 : computeExpiry req.expiresIn mA now with _ | ea
      · exact ⟨[], by simp [h3, uploadCatch_files]⟩
      · simp only [h3]
        by_cases h4 : (st.files.any (fun g => g.id == fid)) = true
        · exact ⟨[], by simp [h4, uploadCatch_files]⟩
        · refine ⟨[insertedRow srcId f now fid key ea], ?_⟩
          simp only [h4, Bool.false_eq_true, if_false]
          rw [updateDeviceName_files]

theorem uploadFile_files_append (st : ServerState) (req : UploadReq) (mA : Option Nat)
    (now : Nat) (fid aid : String) (key iv : List Nat) :
    ∃ t, (uploadFile st req mA now fid aid key iv).1.files = st.files ++ t := by
  unfold uploadFile
  rcases hfl : req.file with _ | f
  · exact ⟨[], by simp [hfl]⟩
  · simp only [hfl]
    by_cases h1 : jsStrTruthy req.deviceId = true
    · simpa [h1] using uploadRest_files_append st (req.deviceId.getD "") f req mA now fid key iv
    · rcases h2 : st.devices.find? (fun d => d.name == anonDeviceName req &&
          d.ipAddress == req.clientIP) with _ | d
      · simp only [h1, Bool.false_eq_true, if_false, h2]
        by_cases h3 : (st.devices.any (fun d => d.id == aid)) = true
        · exact ⟨[], by simp [h3, uploadCatch_files]⟩
        · simp only [h3, Bool.false_eq_true, if_false]
          exact uploadRest_files_append _ aid f req mA now fid key iv
      · simp only [h1, Bool.false_eq_true, if_false, h2]
        exact uploadRest_files_append st d.id f req mA now fid key iv

theorem downloadFile_files_shape (st : ServerState) (fid : String) (now : Nat) :
    (downloadFile st fid now).1.files = st.files ∨
    (downloadFile st fid now).1.files = st.files.map (fun g =>
      if g.id == fid then { g with downloadCount := g.downloadCount + 1 } else g) := by
  unfold downloadFile
  rcases h1 : st.files.find? (downloadQuery fid) with _ | f
  · simp [h1]
  · simp only [h1]
    split
    · simp
    · rcases h2 : lookupDisk st.disk f.filename with _ | blob
      · simp [h2]
      · simp only [h2]
        rcases h3 : decryptFile blob f.encryptionKey with _ | pt
        · simp [h3]
        · simp [h3]

theorem deleteFileOp_files_shape (st : ServerState) (fid : String) :
    (deleteFileOp st fid).1.files = st.files ∨
    (deleteFileOp st fid).1.files = setDeleted fid st.files := by
  unfold deleteFileOp
  rcases h1 : st.files.find? (downloadQuery fid) with _ | f
  · simp [h1]
  · simp only [h1]
    split <;> simp

/-- C6: existing files rows only ever evolve by a download-count increment
or by the tombstone being set (never cleared, no other field changes),
under every operation of the subsystem; and a row whose tombstone is set
is invisible to the list, info and download handlers. -/
theorem deleted_is_terminal (st : ServerState) (op : Op) (fid : String)
    (now lim off : Nat) (dev : Option String)
    (hdel : ∀ f ∈ st.files, f.id = fid → f.isDeleted = true) :
    List.Forall₂ evolves st.files ((step st op).files.take st.files.length) ∧
    (∀ g ∈ listFiles st dev lim off now, g.id ≠ fid) ∧
    fileInfoOp st fid now = .notFound ∧
    (downloadFile st fid now).2 = .notFound := by
  have hnone : st.files.find? (downloadQuery fid) = none := by
    rw [List.find?_eq_none]
    intro x hx
    unfold downloadQuery
    by_cases hid : (x.id == fid) = true
    · have hxdel : x.isDeleted = true := hdel x hx (eq_of_beq hid)
      simp [hxdel]
    · simp [hid]
  refine ⟨?_, ?_, ?_, ?_⟩
  · cases op with
    | upload req mA now2 fid2 aid k iv =>
      obtain ⟨t, ht⟩ := uploadFile_files_append st req mA now2 fid2 aid k iv
      show List.Forall₂ evolves st.files
        ((uploadFile st req mA now2 fid2 aid k iv).1.files.take st.files.length)
      rw [ht, List.take_left]
      exact forall2_evolves_refl _
    | download fid2 now2 =>
      show List.Forall₂ evolves st.files
        ((downloadFile st fid2 now2).1.files.take st.files.length)
      rcases downloadFile_files_shape st fid2 now2 with h | h
      · rw [h, List.take_length]
        exact forall2_evolves_refl _
      · have h2 : List.Forall₂ evolves st.files (st.files.map (fun g =>
            if g.id == fid2 then { g with downloadCount := g.downloadCount + 1 } else g)) := by
          apply forall2_evolves_map
          intro g
          by_cases hid : (g.id == fid2) = true
          · rw [if_pos hid]
            exact ⟨rfl, rfl, rfl, rfl, rfl, rfl, rfl, rfl, rfl, Or.inr rfl, Or.inl rfl⟩
          · rw [if_neg hid]
            exact evolves_refl g
        rw [h, h2.length_eq, List.take_length]
        exact h2
    | info fid2 now2 =>
      show List.Forall₂ evolves st.files (st.files.take st.files.length)
      rw [List.take_length]
      exact forall2_evolves_refl _
    | listF dev2 lim2 off2 now2 =>
      show List.Forall₂ evolves st.files (st.files.take st.files.length)
      rw [List.take_length]
      exact forall2_evolves_refl _
    | delF fid2 =>
      show List.Forall₂ evolves st.files
        ((deleteFileOp st fid2).1.files.take st.files.length)
      rcases deleteFileOp_files_shape st fid2 with h | h
      · rw [h, List.take_length]
        exact forall2_evolves_refl _
      · have h2 := (setDeleted_forall2 fid2 st.files).imp (fun _ _ => evolvesD_evolves)
        rw [h, h2.length_eq, List.take_length]
        exact h2
    | cleanup now2 =>
      show List.Forall₂ evolves st.files
        (((st.files.filter (cleanupQuery now2)).foldl cleanupOne (st, 0)).1.files.take
          st.files.length)
      have h2 := (cleanup_foldl_forall2 (st.files.filter (cleanupQuery now2)) st 0).imp
        (fun _ _ => evolvesD_evolves)
      rw [h2.length_eq, List.take_length]
      exact h2
  · intro g hg hgid
    obtain ⟨hmem, hq⟩ := mem_listFiles hg
    have hgdel : g.isDeleted = true := hdel g hmem hgid
    simp [listQuery, hgdel] at hq
  · simp [fileInfoOp, hnone]
  · simp [downloadFile, hnone]

/-- Concrete state with one tombstoned row, for the C6 witness. -/
def tombstoneState : ServerState :=
  { devices := [], files :=
      [{ id := "f1", filename := "n.enc", originalName := "n", size := 1, mimeType := "t",
         deviceId := "d", encryptionKey := [1], uploadTime := 0, expiresAt := none,
         downloadCount := 2, isDeleted := true }],
    apiKeys := [], disk := [] }

/-- C6 witness: the tombstoned row stays invisible and the cleanup step
respects the mutation discipline. -/
theorem deleted_is_terminal_witness :
    (∀ f ∈ tombstoneState.files, f.id = "f1" → f.isDeleted = true) ∧
    (List.Forall₂ evolves tombstoneState.files
      ((step tombstoneState (.cleanup 7)).files.take tombstoneState.files.length) ∧
    (∀ g ∈ listFiles tombstoneState none 50 0 7, g.id ≠ "f1") ∧
    fileInfoOp tombstoneState "f1" 7 = .notFound ∧
    (downloadFile tombstoneState "f1" 7).2 = .notFound) :=
  ⟨by decide, deleted_is_terminal tombstoneState (.cleanup 7) "f1" 7 50 0 none (by decide)⟩

/-! ## C8 and C10: device provisioning and trust defaults -/

/-- The identity and trust flag of a device row, the two fields the trust
claims are about. -/
def devPair (d : DeviceRec) : String × Bool := (d.id, d.isTrusted)

theorem map_devPair_ignore (l : List DeviceRec) (h : DeviceRec → DeviceRec)
    (hh : ∀ d, devPair (h d) = devPair d) : (l.map h).map devPair = l.map devPair := by
  induction l with
  | nil => rfl
  | cons d r ih => simp [hh d, ih]

theorem updateDeviceName_devPairs (st : ServerState) (srcId : String) (dn : Option String) :
    (updateDeviceName st srcId dn).devices.map devPair = st.devices.map devPair := by
  unfold updateDeviceName
  split
  · split
    · split
      · exact map_devPair_ignore st.devices _ (fun d => by
          by_cases h : (d.id == srcId) = true
          · rw [if_pos h]
            rfl
          · rw [if_neg h])
      · rfl
    · rfl
  · rfl

theorem uploadRest_devPairs (st : ServerState) (srcId : String) (f : MulterFile)
    (req : UploadReq) (mA : Option Nat) (now : Nat) (fid : String) (key iv : List Nat) :
    ((uploadRest st srcId f req mA now fid key iv).1.devices).map devPair =
      st.devices.map devPair := by
  unfold uploadRest
  rcases h1 : lookupDisk st.disk f.path with _ | plain
  · simp [h1, uploadCatch_devices]
  · simp only [h1]
    rcases h2 : unlinkDisk f.path
        (diskWrite (f.path ++ ".enc") (encryptFile plain key iv) st.disk) with _ | d3
    · simp [h2, uploadCatch_devices]
    · simp only [h2]
      rcases h3 : computeExpiry req.expiresIn mA now with _ | ea
      · simp [h3, uploadCatch_devices]
      · simp only [h3]
        by_cases h4 : (st.files.any (fun g => g.id == fid)) = true
        · simp [h4, uploadCatch_devices]
        · simp only [h4, Bool.false_eq_true, if_false]
          exact updateDeviceName_devPairs _ srcId req.deviceName

/-- C8: a fresh self row created by registerDevice starts trusted; a fresh
row created by addDiscoveredDevice (the explicit registration/discovery
path) starts untrusted; and the device row provisioned for an anonymous
upload (no truthy deviceId, no existing (name, ip) match) starts trusted,
and stays trusted through the rest of the upload. -/
theorem device_trust_defaults (devs : List DeviceRec) (selfId selfName ip : String)
    (dId dName dIp : String) (pk fp : List Nat) (now : Nat)
    (st : ServerState) (req : UploadReq) (mA : Option Nat) (fileId anonId : String)
    (key iv : List Nat) (fl : MulterFile)
    (h1 : ∀ d ∈ devs, d.id ≠ selfId)
    (h2 : (dId == selfId) = false)
    (h3 : ∀ d ∈ devs, d.id ≠ dId)
    (h4 : req.file = some fl)
    (h5 : jsStrTruthy req.deviceId = false)
    (h6 : st.devices.find? (fun d => d.name == anonDeviceName req &&
      d.ipAddress == req.clientIP) = none)
    (h7 : ∀ d ∈ st.devices, d.id ≠ anonId) :
    (∀ d ∈ registerDevice devs selfId selfName ip fp now,
      d.id = selfId → d.isTrusted = true) ∧
    (∃ d ∈ registerDevice devs selfId selfName ip fp now, d.id = selfId) ∧
    (∀ d ∈ addDiscoveredDevice devs selfId dId dName dIp pk now,
      d.id = dId → d.isTrusted = false) ∧
    (∃ d ∈ addDiscoveredDevice devs selfId dId dName dIp pk now, d.id = dId) ∧
    (∀ d ∈ (uploadFile st req mA now fileId anonId key iv).1.devices,
      d.id = anonId → d.isTrusted = true) ∧
    (∃ d ∈ (uploadFile st req mA now fileId anonId key iv).1.devices, d.id = anonId) := by
  have hanyS : (devs.any (fun d => d.id == selfId)) = false := by
    rw [List.any_eq_false]
    intro d hd hcon
    exact h1 d hd (eq_of_beq hcon)
  have hanyD : (devs.any (fun d => d.id == dId)) = false := by
    rw [List.any_eq_false]
    intro d hd hcon
    exact h3 d hd (eq_of_beq hcon)
  have hreg : registerDevice devs selfId selfName ip fp now =
      devs ++ [selfDeviceRow selfId selfName ip fp now] := by
    unfold registerDevice
    rw [hanyS]
    simp
  have hdisc : addDiscoveredDevice devs selfId dId dName dIp pk now =
      devs ++ [discoveredRow dId dName dIp pk now] := by
    unfold addDiscoveredDevice
    rw [h2, hanyD]
    simp
  have hanyA : (st.devices.any (fun d => d.id == anonId)) = false := by
    rw [List.any_eq_false]
    intro d hd hcon
    exact h7 d hd (eq_of_beq hcon)
  have hup : ((uploadFile st req mA now fileId anonId key iv).1.devices).map devPair =
      st.devices.map devPair ++ [(anonId, true)] := by
    unfold uploadFile
    rw [h4]
    simp only [h5, Bool.false_eq_true, if_false, h6, hanyA]
    rw [uploadRest_devPairs]
    simp [anonDeviceRec, devPair]
  refine ⟨?_, ?_, ?_, ?_, ?_, ?_⟩
  · intro d hd hid
    rw [hreg, List.mem_append] at hd
    rcases hd with hd | hd
    · exact absurd hid (h1 d hd)
    · rw [List.mem_singleton] at hd
      rw [hd]
      rfl
  · refine ⟨selfDeviceRow selfId selfName ip fp now, ?_, rfl⟩
    rw [hreg, List.mem_append]
    exact Or.inr (List.mem_singleton.mpr rfl)
  · intro d hd hid
    rw [hdisc, List.mem_append] at hd
    rcases hd with hd | hd
    · exact absurd hid (h3 d hd)
    · rw [List.mem_singleton] at hd
      rw [hd]
      rfl
  · refine ⟨discoveredRow dId dName dIp pk now, ?_, rfl⟩
    rw [hdisc, List.mem_append]
    exact Or.inr (List.mem_singleton.mpr rfl)
  · intro d hd hid
    have hpair : devPair d ∈ st.devices.map devPair ++ [(anonId, true)] := by
      rw [← hup]
      exact List.mem_map_of_mem devPair hd
    rw [List.mem_append] at hpair
    rcases hpair with hpair | hpair
    · rw [List.mem_map] at hpair
      obtain ⟨d0, hd0, hd0p⟩ := hpair
      have : d0.id = d.id := congrArg Prod.fst hd0p
      exact absurd (this.trans hid) (h7 d0 hd0)
    · rw [List.mem_singleton] at hpair
      exact congrArg Prod.snd hpair
  · have hpair : (anonId, true) ∈
        ((uploadFile st req mA now fileId anonId key iv).1.devices).map devPair := by
      rw [hup, List.mem_append]
      exact Or.inr (List.mem_singleton.mpr rfl)
    rw [List.mem_map] at hpair
    obtain ⟨d, hd, hdp⟩ := hpair
    exact ⟨d, hd, congrArg Prod.fst hdp⟩

/-- Request of an anonymous upload with no device fields, for the C8
witness. -/
def anonReq : UploadReq :=
  { file := some { path := "p", originalname := "a", size := 3, mimetype := "t" },
    deviceId := none, deviceName := none, expiresIn := none, clientIP := "ip" }

set_option maxRecDepth 8000 in
/-- C8 witness: empty device table, concrete names and keys. -/
theorem device_trust_defaults_witness :
    ((∀ d ∈ ([] : List DeviceRec), d.id ≠ "self") ∧
      (("disc" == "self") = false) ∧
      (∀ d ∈ ([] : List DeviceRec), d.id ≠ "disc") ∧
      anonReq.file = some { path := "p", originalname := "a", size := 3, mimetype := "t" } ∧
      jsStrTruthy anonReq.deviceId = false ∧
      stagedState.devices.find? (fun d => d.name == anonDeviceName anonReq &&
        d.ipAddress == anonReq.clientIP) = none ∧
      (∀ d ∈ stagedState.devices, d.id ≠ "anon")) ∧
    ((∀ d ∈ registerDevice [] "self" "me" "ip" [1] 0, d.id = "self" → d.isTrusted = true) ∧
    (∃ d ∈ registerDevice [] "self" "me" "ip" [1] 0, d.id = "self") ∧
    (∀ d ∈ addDiscoveredDevice [] "self" "disc" "dn" "di" [2] 0,
      d.id = "disc" → d.isTrusted = false) ∧
    (∃ d ∈ addDiscoveredDevice [] "self" "disc" "dn" "di" [2] 0, d.id = "disc") ∧
    (∀ d ∈ (uploadFile stagedState anonReq none 0 "fid" "anon" (List.range 32)
      (List.range 16)).1.devices, d.id = "anon" → d.isTrusted = true) ∧
    (∃ d ∈ (uploadFile stagedState anonReq none 0 "fid" "anon" (List.range 32)
      (List.range 16)).1.devices, d.id = "anon")) :=
  ⟨⟨by decide, by decide, by decide, by decide, by decide, by decide, by decide⟩,
    device_trust_defaults [] "self" "me" "ip" "disc" "dn" "di" [2] [1] 0
      stagedState anonReq none "fid" "anon" (List.range 32) (List.range 16)
      { path := "p", originalname := "a", size := 3, mimetype := "t" }
      (by decide) (by decide) (by decide) (by decide) (by decide) (by decide) (by decide)⟩

theorem str_ne_enc (s : String) : s ≠ s ++ ".enc" := by
  intro h
  have hlen := congrArg String.length h
  rw [String.length_append] at hlen
  have h4 : (".enc" : String).length = 4 := rfl
  omega

theorem lookupDisk_mem {d : Disk} {n : String} {b : List Nat}
    (h : lookupDisk d n = some b) : diskHas d n = true := by
  unfold lookupDisk at h
  rcases hf : d.find? (fun e => e.1 == n) with _ | e
  · rw [hf] at h
    simp at h
  · have hmem := List.mem_of_find?_eq_some hf
    have hp := List.find?_some hf
    unfold diskHas
    rw [List.any_eq_true]
    exact ⟨e, hmem, hp⟩

theorem diskHas_write_ne {d : Disk} {n m : String} {b : List Nat} (hnm : n ≠ m)
    (h : diskHas d n = true) : diskHas (diskWrite m b d) n = true := by
  unfold diskHas at h ⊢
  unfold diskWrite removeName
  rw [List.any_eq_true] at h ⊢
  obtain ⟨e, he, hp⟩ := h
  refine ⟨e, ?_, hp⟩
  rw [List.mem_cons]
  right
  rw [List.mem_filter]
  refine ⟨he, ?_⟩
  have he1 : e.1 = n := eq_of_beq hp
  simp [he1, hnm]

/-- C10: an upload with a truthy deviceId uses that id verbatim as the
owning device of the inserted files row and succeeds without any lookup
of the devices table (whose rows and trust flags are untouched and
unconstrained); the anonymous provisioning branch is not taken. -/
theorem verbatim_device_id_upload (st : ServerState) (req : UploadReq) (f : MulterFile)
    (mA : Option Nat) (now : Nat) (fileId anonId : String) (key iv : List Nat)
    (pt : List Nat) (ea : Option Nat)
    (hfile : req.file = some f)
    (hdev : jsStrTruthy req.deviceId = true)
    (hpt : lookupDisk st.disk f.path = some pt)
    (hexp : computeExpiry req.expiresIn mA now = some ea)
    (hfresh : ∀ g ∈ st.files, g.id ≠ fileId) :
    (uploadFile st req mA now fileId anonId key iv).2 =
      .success fileId (req.deviceId.getD "") ea ∧
    (uploadFile st req mA now fileId anonId key iv).1.files =
      st.files ++ [insertedRow (req.deviceId.getD "") f now fileId key ea] ∧
    ((uploadFile st req mA now fileId anonId key iv).1.devices).map devPair =
      st.devices.map devPair := by
  have hany : (st.files.any (fun g => g.id == fileId)) = false := by
    rw [List.any_eq_false]
    intro g hg hcon
    exact hfresh g hg (eq_of_beq hcon)
  have hne : f.path ≠ f.path ++ ".enc" := str_ne_enc f.path
  have hunl : unlinkDisk f.path
      (diskWrite (f.path ++ ".enc") (encryptFile pt key iv) st.disk) =
      some (removeName f.path
        (diskWrite (f.path ++ ".enc") (encryptFile pt key iv) st.disk)) := by
    unfold unlinkDisk
    rw [if_pos (diskHas_write_ne hne (lookupDisk_mem hpt))]
  refine ⟨?_, ?_, ?_⟩
  · simp only [uploadFile, hfile, hdev, if_true, uploadRest, hpt, hunl, hexp, hany,
      Bool.false_eq_true, if_false]
  · simp only [uploadFile, hfile, hdev, if_true, uploadRest, hpt, hunl, hexp, hany,
      Bool.false_eq_true, if_false]
    rw [updateDeviceName_files]
  · simp only [uploadFile, hfile, hdev, if_true, uploadRest, hpt, hunl, hexp, hany,
      Bool.false_eq_true, if_false]
    rw [updateDeviceName_devPairs]

/-- Upload request carrying a verbatim device id, for the C10 witness. -/
def verbatimReq : UploadReq :=
  { file := some { path := "p", originalname := "a", size := 3, mimetype := "t" },
    deviceId := some "dev9", deviceName := none, expiresIn := none, clientIP := "ip" }

set_option maxRecDepth 8000 in
/-- C10 witness: the device table is empty, so no Device Record with id
dev9 exists, yet the upload succeeds and records dev9 verbatim. -/
theorem verbatim_device_id_upload_witness :
    (verbatimReq.file = some { path := "p", originalname := "a", size := 3, mimetype := "t" } ∧
      jsStrTruthy verbatimReq.deviceId = true ∧
      lookupDisk stagedState.disk "p" = some [1, 2, 3] ∧
      computeExpiry verbatimReq.expiresIn none 0 = some none ∧
      (∀ g ∈ stagedState.files, g.id ≠ "fid")) ∧
    ((uploadFile stagedState verbatimReq none 0 "fid" "anon" (List.range 32)
        (List.range 16)).2 = .success "fid" (verbatimReq.deviceId.getD "") none ∧
      (uploadFile stagedState verbatimReq none 0 "fid" "anon" (List.range 32)
        (List.range 16)).1.files = stagedState.files ++
        [insertedRow (verbatimReq.deviceId.getD "")
          { path := "p", originalname := "a", size := 3, mimetype := "t" } 0 "fid"
          (List.range 32) none] ∧
      ((uploadFile stagedState verbatimReq none 0 "fid" "anon" (List.range 32)
        (List.range 16)).1.devices).map devPair = stagedState.devices.map devPair) :=
  ⟨⟨by decide, by decide, by decide, by decide, by decide⟩,
    verbatim_device_id_upload stagedState verbatimReq
      { path := "p", originalname := "a", size := 3, mimetype := "t" } none 0 "fid" "anon"
      (List.range 32) (List.range 16) [1, 2, 3] none
      (by decide) (by decide) (by decide) (by decide) (by decide)⟩

end Nostromo
